import Mathlib

/-!
Verification of the outbound-call rate governor of the faq-app repository
(`src/app/core/rate_limiter.py`, class `OpenAIRateLimiter`) and the derived
health classification of `src/app/services/embeddings_service.py`.

Modelling conventions:
* wall-clock timestamps and wait durations (Python floats) are rationals;
* token costs and configured ceilings (Python ints) are integers;
* Python's `min`/`max` over a possibly-empty sequence is modelled by
  `Option`-valued `listMin`/`listMax`; a `ValueError` raised by `min([])`
  propagates as `none` through `calculate_wait_time` and `acquire`;
* `await asyncio.sleep(w)` is modelled by advancing the clock by exactly `w`;
* the sequential semantics of one coroutine issuing `acquire` calls one after
  another is the fold `runAcquires`.
-/

/-- The mutable state of `OpenAIRateLimiter` (rate_limiter.py lines 12-29):
four configured ceilings and four usage ledgers. -/
structure RateLimiterState where
  rpm_limit : Int
  rpd_limit : Int
  tpm_limit : Int
  tpd_limit : Int
  requests_minute : List ℚ
  requests_day : List ℚ
  tokens_minute : List (ℚ × Int)
  tokens_day : List (ℚ × Int)
deriving DecidableEq

/-- A fresh limiter with the given ceilings and empty ledgers
(rate_limiter.py constructor, lines 12-29). -/
def initState (rpm rpd tpm tpd : Int) : RateLimiterState :=
  ⟨rpm, rpd, tpm, tpd, [], [], [], []⟩

/-- Python `min(l)` for a list of timestamps: `none` models the `ValueError`
raised on an empty sequence. -/
def listMin : List ℚ → Option ℚ
  | [] => none
  | x :: xs => some (xs.foldl min x)

/-- Python `max(l)` for a list of wait times: `none` on an empty sequence. -/
def listMax : List ℚ → Option ℚ
  | [] => none
  | x :: xs => some (xs.foldl max x)

/-- `sum(tokens for _, tokens in ledger)` (rate_limiter.py lines 79, 88). -/
def tokenSum (l : List (ℚ × Int)) : Int :=
  (l.map Prod.snd).sum

/-- The 60-second window used for the per-minute metrics. -/
def minuteWindow : ℚ := 60

/-- The 24-hour window (`24 * 60 * 60` seconds) used for the per-day metrics. -/
def dayWindow : ℚ := 86400

/-- Wait-time formula shared by all four metrics
(rate_limiter.py lines 68, 74, 83, 92): window length minus the age of the
oldest counted entry, plus a one-second safety margin. -/
def waitFor (window now oldest : ℚ) : ℚ :=
  window - (now - oldest) + 1

/-- `_cleanup_old_entries` (rate_limiter.py lines 51-60): keep only entries
strictly newer than the window boundary. -/
def cleanup_old_entries (s : RateLimiterState) (now : ℚ) : RateLimiterState :=
  { s with
    requests_minute := s.requests_minute.filter fun t => now - 60 < t
    tokens_minute := s.tokens_minute.filter fun p => now - 60 < p.1
    requests_day := s.requests_day.filter fun t => now - 86400 < t
    tokens_day := s.tokens_day.filter fun p => now - 86400 < p.1 }

/-- One request-count branch of `_calculate_wait_time`
(rate_limiter.py lines 66-70 for RPM, 72-76 for RPD): if the ledger length has
reached the ceiling, append the wait computed from the oldest ledger entry to
the accumulated wait list; `min` of an empty ledger raises (`none`). -/
def requestWaits (limit : Int) (ledger : List ℚ) (window now : ℚ)
    (acc : List ℚ) : Option (List ℚ) :=
  if limit ≤ (ledger.length : Int) then
    (listMin ledger).map fun oldest => acc ++ [waitFor window now oldest]
  else
    some acc

/-- One token-sum branch of `_calculate_wait_time`
(rate_limiter.py lines 79-85 for TPM, 88-94 for TPD): if the recorded token
cost plus the estimated cost exceeds the ceiling and the ledger is nonempty,
append the wait computed from the oldest token entry. -/
def tokenWaits (limit : Int) (ledger : List (ℚ × Int)) (window now : ℚ)
    (estimated_tokens : Int) (acc : List ℚ) : List ℚ :=
  if limit < tokenSum ledger + estimated_tokens then
    match listMin (ledger.map Prod.fst) with
    | some oldest => acc ++ [waitFor window now oldest]
    | none => acc
  else
    acc

/-- `_calculate_wait_time` (rate_limiter.py lines 62-96): collect the wait
times of all binding metrics in order RPM, RPD, TPM, TPD and return their
maximum, or `0` if no metric binds.  `none` models the `ValueError` from
`min` over an empty request ledger. -/
def calculate_wait_time (s : RateLimiterState) (now : ℚ)
    (estimated_tokens : Int) : Option ℚ :=
  (requestWaits s.rpm_limit s.requests_minute minuteWindow now []).bind fun w1 =>
    (requestWaits s.rpd_limit s.requests_day dayWindow now w1).map fun w2 =>
      (listMax (tokenWaits s.tpd_limit s.tokens_day dayWindow now estimated_tokens
        (tokenWaits s.tpm_limit s.tokens_minute minuteWindow now estimated_tokens
          w2))).getD 0

/-- `_record_request` (rate_limiter.py lines 98-103): append one timestamp to
each request ledger and one (timestamp, cost) pair to each token ledger. -/
def record_request (s : RateLimiterState) (now : ℚ) (tokens_used : Int) :
    RateLimiterState :=
  { s with
    requests_minute := s.requests_minute ++ [now]
    requests_day := s.requests_day ++ [now]
    tokens_minute := s.tokens_minute ++ [(now, tokens_used)]
    tokens_day := s.tokens_day ++ [(now, tokens_used)] }

/-- `acquire` (rate_limiter.py lines 31-49): prune, compute the wait, sleep
for it when positive (the clock advances by exactly the wait), prune again,
then record unconditionally.  `none` models the exception propagated from
`_calculate_wait_time`. -/
def acquire (s : RateLimiterState) (now : ℚ) (estimated_tokens : Int) :
    Option RateLimiterState :=
  (calculate_wait_time (cleanup_old_entries s now) now estimated_tokens).map
    fun wait_time =>
      if 0 < wait_time then
        record_request
          (cleanup_old_entries (cleanup_old_entries s now) (now + wait_time))
          (now + wait_time) estimated_tokens
      else
        record_request (cleanup_old_entries s now) now estimated_tokens

/-- A sequence of `acquire` calls issued one after another by a single caller;
each pair gives the wall-clock instant of the call and its estimated cost. -/
def runAcquires : RateLimiterState → List (ℚ × Int) → Option RateLimiterState
  | s, [] => some s
  | s, (t, c) :: rest => (acquire s t c).bind fun s2 => runAcquires s2 rest

/-- The per-metric block of the status dictionary
(rate_limiter.py lines 110-131). -/
structure MetricStatus where
  current : Int
  limit : Int
  remaining : Int
deriving DecidableEq

/-- The status dictionary returned by `_get_current_status`. -/
structure Status where
  rpm : MetricStatus
  rpd : MetricStatus
  tpm : MetricStatus
  tpd : MetricStatus
deriving DecidableEq

/-- `_get_current_status` (rate_limiter.py lines 105-131): report, per metric,
the current ledger count or token sum, the configured ceiling, and
`max(0, limit - current)`. -/
def get_current_status (s : RateLimiterState) : Status :=
  { rpm := ⟨(s.requests_minute.length : Int), s.rpm_limit,
      max 0 (s.rpm_limit - (s.requests_minute.length : Int))⟩
    rpd := ⟨(s.requests_day.length : Int), s.rpd_limit,
      max 0 (s.rpd_limit - (s.requests_day.length : Int))⟩
    tpm := ⟨tokenSum s.tokens_minute, s.tpm_limit,
      max 0 (s.tpm_limit - tokenSum s.tokens_minute)⟩
    tpd := ⟨tokenSum s.tokens_day, s.tpd_limit,
      max 0 (s.tpd_limit - tokenSum s.tokens_day)⟩ }

/-- `get_status` (rate_limiter.py lines 133-137): prune, then snapshot; the
first component is the limiter state after the pruning side effect. -/
def get_status (s : RateLimiterState) (now : ℚ) : RateLimiterState × Status :=
  (cleanup_old_entries s now, get_current_status (cleanup_old_entries s now))

/-- `update_limits` (rate_limiter.py lines 139-152): each ceiling is replaced
exactly when a value is supplied (`is not None`); ledgers are untouched. -/
def update_limits (s : RateLimiterState)
    (rpm rpd tpm tpd : Option Int) : RateLimiterState :=
  { s with
    rpm_limit := rpm.getD s.rpm_limit
    rpd_limit := rpd.getD s.rpd_limit
    tpm_limit := tpm.getD s.tpm_limit
    tpd_limit := tpd.getD s.tpd_limit }

/-- Health classification values of the `overall_health` field
(embeddings_service.py line 111). -/
inductive Health where
  | good : Health
  | caution : Health
  | critical : Health
deriving DecidableEq

/-- The conditional expression of embeddings_service.py line 111:
good if both usage ratios are below 0.7, else caution if both are below 0.9,
else critical. -/
def overall_health (rpm_usage tpm_usage : ℚ) : Health :=
  if rpm_usage < 7/10 ∧ tpm_usage < 7/10 then Health.good
  else if rpm_usage < 9/10 ∧ tpm_usage < 9/10 then Health.caution
  else Health.critical

/-- The `overall_health` field computed by
`EmbeddingService.get_rate_limit_status` (embeddings_service.py lines 93-113):
usage ratios are current/limit over the freshly pruned status snapshot; a zero
ceiling makes the Python division raise `ZeroDivisionError`, modelled as
`none`. -/
def get_rate_limit_health (s : RateLimiterState) (now : ℚ) : Option Health :=
  if (get_status s now).2.rpm.limit = 0 ∨ (get_status s now).2.tpm.limit = 0 then
    none
  else
    some (overall_health
      (((get_status s now).2.rpm.current : ℚ) / ((get_status s now).2.rpm.limit : ℚ))
      (((get_status s now).2.tpm.current : ℚ) / ((get_status s now).2.tpm.limit : ℚ)))

/-- Formulated from the spec wording for C9: bucket a single ratio (the worse
of the two usage ratios) against the thresholds 0.7 and 0.9. -/
def healthBucket (r : ℚ) : Health :=
  if r < 7/10 then Health.good
  else if r < 9/10 then Health.caution
  else Health.critical

/-- Formulated from the spec wording for C2: no metric is violated — every
request count is below its ceiling and every token sum plus the estimated
cost is within its ceiling. -/
def noViolation (s : RateLimiterState) (est : Int) : Prop :=
  (s.requests_minute.length : Int) < s.rpm_limit ∧
  (s.requests_day.length : Int) < s.rpd_limit ∧
  tokenSum s.tokens_minute + est ≤ s.tpm_limit ∧
  tokenSum s.tokens_day + est ≤ s.tpd_limit

/-- Formulated from the spec wording for C2: one candidate wait per violated
metric, computed as window length − (now − timestamp of the oldest entry
counted against that metric) + 1 second. -/
def specViolatedWaits (s : RateLimiterState) (now : ℚ) (est : Int) : List ℚ :=
  (if s.rpm_limit ≤ (s.requests_minute.length : Int) then
    match listMin s.requests_minute with
    | some oldest => [waitFor minuteWindow now oldest]
    | none => []
  else []) ++
  (if s.rpd_limit ≤ (s.requests_day.length : Int) then
    match listMin s.requests_day with
    | some oldest => [waitFor dayWindow now oldest]
    | none => []
  else []) ++
  (if s.tpm_limit < tokenSum s.tokens_minute + est then
    match listMin (s.tokens_minute.map Prod.fst) with
    | some oldest => [waitFor minuteWindow now oldest]
    | none => []
  else []) ++
  (if s.tpd_limit < tokenSum s.tokens_day + est then
    match listMin (s.tokens_day.map Prod.fst) with
    | some oldest => [waitFor dayWindow now oldest]
    | none => []
  else [])

/-- Formulated from the spec wording for C2: the delay is the maximum — not
the sum — of the violated metrics' waits, and zero when no metric is
violated. -/
def specWaitTime (s : RateLimiterState) (now : ℚ) (est : Int) : ℚ :=
  (listMax (specViolatedWaits s now est)).getD 0

/-- Synchronization events of one `acquire` call. -/
inductive LockEvent where
  | lockAcquire : LockEvent
  | lockRelease : LockEvent
  | sleepFor : ℚ → LockEvent
  | grant : ℚ → Int → LockEvent
deriving DecidableEq

/-- Whether an event is the suspension for the computed wait. -/
def isSleep : LockEvent → Bool
  | LockEvent.sleepFor _ => true
  | _ => false

/-- The ordered synchronization events of `acquire`
(rate_limiter.py lines 31-49): the whole body — pruning, wait computation,
the `asyncio.sleep`, and the recording (`grant`) — executes inside
`async with self._lock`, so the trace opens by taking the lock and closes by
releasing it, with no release or re-acquisition in between. -/
def acquireTrace (s : RateLimiterState) (now : ℚ) (est : Int) :
    Option (List LockEvent) :=
  (calculate_wait_time (cleanup_old_entries s now) now est).map fun wait_time =>
    if 0 < wait_time then
      [LockEvent.lockAcquire, LockEvent.sleepFor wait_time,
       LockEvent.grant (now + wait_time) est, LockEvent.lockRelease]
    else
      [LockEvent.lockAcquire, LockEvent.grant now est, LockEvent.lockRelease]

/-- The request-count part of the admission invariant: positive request
ceilings and both request-ledger counts within their ceilings. -/
def reqInv (s : RateLimiterState) : Prop :=
  0 < s.rpm_limit ∧ 0 < s.rpd_limit ∧
  (s.requests_minute.length : Int) ≤ s.rpm_limit ∧
  (s.requests_day.length : Int) ≤ s.rpd_limit

/-! ### Projection lemmas -/

@[simp]
theorem cleanup_rpm_limit (s : RateLimiterState) (now : ℚ) :
    (cleanup_old_entries s now).rpm_limit = s.rpm_limit := rfl

@[simp]
theorem cleanup_rpd_limit (s : RateLimiterState) (now : ℚ) :
    (cleanup_old_entries s now).rpd_limit = s.rpd_limit := rfl

@[simp]
theorem cleanup_tpm_limit (s : RateLimiterState) (now : ℚ) :
    (cleanup_old_entries s now).tpm_limit = s.tpm_limit := rfl

@[simp]
theorem cleanup_tpd_limit (s : RateLimiterState) (now : ℚ) :
    (cleanup_old_entries s now).tpd_limit = s.tpd_limit := rfl

@[simp]
theorem cleanup_requests_minute (s : RateLimiterState) (now : ℚ) :
    (cleanup_old_entries s now).requests_minute =
      s.requests_minute.filter fun t => now - 60 < t := rfl

@[simp]
theorem cleanup_requests_day (s : RateLimiterState) (now : ℚ) :
    (cleanup_old_entries s now).requests_day =
      s.requests_day.filter fun t => now - 86400 < t := rfl

@[simp]
theorem cleanup_tokens_minute (s : RateLimiterState) (now : ℚ) :
    (cleanup_old_entries s now).tokens_minute =
      s.tokens_minute.filter fun p => now - 60 < p.1 := rfl

@[simp]
theorem cleanup_tokens_day (s : RateLimiterState) (now : ℚ) :
    (cleanup_old_entries s now).tokens_day =
      s.tokens_day.filter fun p => now - 86400 < p.1 := rfl

@[simp]
theorem record_rpm_limit (s : RateLimiterState) (now : ℚ) (c : Int) :
    (record_request s now c).rpm_limit = s.rpm_limit := rfl

@[simp]
theorem record_rpd_limit (s : RateLimiterState) (now : ℚ) (c : Int) :
    (record_request s now c).rpd_limit = s.rpd_limit := rfl

@[simp]
theorem record_tpm_limit (s : RateLimiterState) (now : ℚ) (c : Int) :
    (record_request s now c).tpm_limit = s.tpm_limit := rfl

@[simp]
theorem record_tpd_limit (s : RateLimiterState) (now : ℚ) (c : Int) :
    (record_request s now c).tpd_limit = s.tpd_limit := rfl

@[simp]
theorem record_requests_minute (s : RateLimiterState) (now : ℚ) (c : Int) :
    (record_request s now c).requests_minute = s.requests_minute ++ [now] := rfl

@[simp]
theorem record_requests_day (s : RateLimiterState) (now : ℚ) (c : Int) :
    (record_request s now c).requests_day = s.requests_day ++ [now] := rfl

@[simp]
theorem record_tokens_minute (s : RateLimiterState) (now : ℚ) (c : Int) :
    (record_request s now c).tokens_minute = s.tokens_minute ++ [(now, c)] := rfl

@[simp]
theorem record_tokens_day (s : RateLimiterState) (now : ℚ) (c : Int) :
    (record_request s now c).tokens_day = s.tokens_day ++ [(now, c)] := rfl

/-! ### Facts about `listMin`, `listMax`, and filtering -/

theorem foldl_min_choice (xs : List ℚ) (a : ℚ) :
    xs.foldl min a = a ∨ xs.foldl min a ∈ xs := by
  induction xs generalizing a with
  | nil => exact Or.inl rfl
  | cons x t ih =>
    rw [List.foldl_cons]
    rcases ih (min a x) with h | h
    · rcases min_choice a x with h2 | h2
      · exact Or.inl (by rw [h, h2])
      · exact Or.inr (by rw [h, h2]; exact List.mem_cons_self x t)
    · exact Or.inr (List.mem_cons_of_mem x h)

theorem foldl_min_le_init (xs : List ℚ) (a : ℚ) : xs.foldl min a ≤ a := by
  induction xs generalizing a with
  | nil => exact le_refl a
  | cons x t ih =>
    rw [List.foldl_cons]
    exact le_trans (ih (min a x)) (min_le_left a x)

theorem foldl_min_le_mem (xs : List ℚ) (a y : ℚ) (hy : y ∈ xs) :
    xs.foldl min a ≤ y := by
  induction xs generalizing a with
  | nil => cases hy
  | cons x t ih =>
    rw [List.foldl_cons]
    rcases List.mem_cons.1 hy with rfl | hy
    · exact le_trans (foldl_min_le_init t (min a y)) (min_le_right a y)
    · exact ih (min a x) hy

theorem listMin_mem (l : List ℚ) (o : ℚ) (h : listMin l = some o) : o ∈ l := by
  cases l with
  | nil => cases h
  | cons x xs =>
    have hx : xs.foldl min x = o := Option.some.inj h
    rcases foldl_min_choice xs x with h2 | h2
    · rw [← hx, h2]; exact List.mem_cons_self x xs
    · rw [← hx]; exact List.mem_cons_of_mem x h2

theorem listMin_le (l : List ℚ) (o y : ℚ) (h : listMin l = some o) (hy : y ∈ l) :
    o ≤ y := by
  cases l with
  | nil => cases h
  | cons x xs =>
    have hx : xs.foldl min x = o := Option.some.inj h
    rcases List.mem_cons.1 hy with rfl | hy
    · rw [← hx]; exact foldl_min_le_init xs y
    · rw [← hx]; exact foldl_min_le_mem xs x y hy

theorem listMin_isSome (l : List ℚ) (h : l ≠ []) : ∃ o, listMin l = some o := by
  cases l with
  | nil => exact absurd rfl h
  | cons x xs => exact ⟨xs.foldl min x, rfl⟩

theorem le_foldl_max_init (xs : List ℚ) (a : ℚ) : a ≤ xs.foldl max a := by
  induction xs generalizing a with
  | nil => exact le_refl a
  | cons x t ih =>
    rw [List.foldl_cons]
    exact le_trans (le_max_left a x) (ih (max a x))

theorem le_foldl_max_mem (xs : List ℚ) (a y : ℚ) (hy : y ∈ xs) :
    y ≤ xs.foldl max a := by
  induction xs generalizing a with
  | nil => cases hy
  | cons x t ih =>
    rw [List.foldl_cons]
    rcases List.mem_cons.1 hy with rfl | hy
    · exact le_trans (le_max_right a y) (le_foldl_max_init t (max a y))
    · exact ih (max a x) hy

theorem le_listMax_getD (l : List ℚ) (x : ℚ) (hx : x ∈ l) :
    x ≤ (listMax l).getD 0 := by
  cases l with
  | nil => cases hx
  | cons a xs =>
    show x ≤ xs.foldl max a
    rcases List.mem_cons.1 hx with rfl | hx
    · exact le_foldl_max_init xs x
    · exact le_foldl_max_mem xs a x hx

theorem length_filter_lt (l : List ℚ) (p : ℚ → Bool) (x : ℚ)
    (hx : x ∈ l) (hpx : p x = false) : (l.filter p).length < l.length := by
  induction l with
  | nil => cases hx
  | cons a t ih =>
    rcases List.mem_cons.1 hx with rfl | hx
    · rw [List.filter_cons, hpx]
      simp only [Bool.false_eq_true, if_false, List.length_cons]
      exact Nat.lt_succ_of_le (List.length_filter_le p t)
    · rw [List.filter_cons]
      cases hpa : p a with
      | true =>
        simp only [if_true, List.length_cons]
        exact Nat.succ_lt_succ (ih hx)
      | false =>
        simp only [Bool.false_eq_true, if_false, List.length_cons]
        exact Nat.lt_succ_of_lt (ih hx)

theorem filter_idempotent (l : List ℚ) (p : ℚ → Bool) :
    (l.filter p).filter p = l.filter p := by
  apply List.filter_eq_self.2
  intro a ha
  exact List.of_mem_filter ha

theorem pair_filter_idempotent (l : List (ℚ × Int)) (p : ℚ × Int → Bool) :
    (l.filter p).filter p = l.filter p := by
  apply List.filter_eq_self.2
  intro a ha
  exact List.of_mem_filter ha

/-! ### Claim C5 -/

/-- Claim C5: pruning is idempotent and never removes an in-window entry:
for any ledger state and fixed observation time, applying
`_cleanup_old_entries` twice yields the same ledgers as applying it once, and
cleanup keeps every entry whose timestamp is still within its window
(strictly newer than the window boundary, the notion of "in window" used by
the code's filters). -/
theorem c5_cleanup_idempotent_and_keeps_in_window (s : RateLimiterState) (now : ℚ) :
    cleanup_old_entries (cleanup_old_entries s now) now = cleanup_old_entries s now ∧
    (∀ t ∈ s.requests_minute, now - 60 < t →
      t ∈ (cleanup_old_entries s now).requests_minute) ∧
    (∀ p ∈ s.tokens_minute, now - 60 < p.1 →
      p ∈ (cleanup_old_entries s now).tokens_minute) ∧
    (∀ t ∈ s.requests_day, now - 86400 < t →
      t ∈ (cleanup_old_entries s now).requests_day) ∧
    (∀ p ∈ s.tokens_day, now - 86400 < p.1 →
      p ∈ (cleanup_old_entries s now).tokens_day) := by
  refine ⟨?_, ?_, ?_, ?_, ?_⟩
  · show ({ s with
      requests_minute := _, tokens_minute := _,
      requests_day := _, tokens_day := _ } : RateLimiterState) = _
    simp only [cleanup_old_entries, cleanup_requests_minute, cleanup_tokens_minute,
      cleanup_requests_day, cleanup_tokens_day, filter_idempotent,
      pair_filter_idempotent]
  · intro t ht hlt
    rw [cleanup_requests_minute]
    exact List.mem_filter.2 ⟨ht, decide_eq_true hlt⟩
  · intro p hp hlt
    rw [cleanup_tokens_minute]
    exact List.mem_filter.2 ⟨hp, decide_eq_true hlt⟩
  · intro t ht hlt
    rw [cleanup_requests_day]
    exact List.mem_filter.2 ⟨ht, decide_eq_true hlt⟩
  · intro p hp hlt
    rw [cleanup_tokens_day]
    exact List.mem_filter.2 ⟨hp, decide_eq_true hlt⟩

/-- Witness for C5 at a concrete state and instant. -/
theorem c5_cleanup_idempotent_and_keeps_in_window_witness :
    cleanup_old_entries
        (cleanup_old_entries (⟨1, 1, 1, 1, [50], [50], [(50, 2)], [(50, 2)]⟩ :
          RateLimiterState) 60) 60 =
      cleanup_old_entries (⟨1, 1, 1, 1, [50], [50], [(50, 2)], [(50, 2)]⟩ :
        RateLimiterState) 60 ∧
    (50 : ℚ) ∈ (cleanup_old_entries (⟨1, 1, 1, 1, [50], [50], [(50, 2)], [(50, 2)]⟩ :
      RateLimiterState) 60).requests_minute ∧
    ((50 : ℚ), (2 : Int)) ∈ (cleanup_old_entries
      (⟨1, 1, 1, 1, [50], [50], [(50, 2)], [(50, 2)]⟩ : RateLimiterState) 60).tokens_minute :=
  ⟨(c5_cleanup_idempotent_and_keeps_in_window _ 60).1,
   (c5_cleanup_idempotent_and_keeps_in_window _ 60).2.1 50
     (List.mem_singleton.2 rfl) (by norm_num),
   (c5_cleanup_idempotent_and_keeps_in_window _ 60).2.2.1 (50, 2)
     (List.mem_singleton.2 rfl) (by norm_num)⟩

/-! ### Claim C6 -/

/-- Claim C6: for every governor state, the status snapshot reports, for each
of the four metrics, the current in-window count or token sum, the configured
ceiling, and remaining = max(0, ceiling − current); in particular the
reported remaining value is never negative. -/
theorem c6_status_fields_and_remaining_nonneg (s : RateLimiterState) (now : ℚ) :
    ((get_status s now).2.rpm.current =
        ((cleanup_old_entries s now).requests_minute.length : Int) ∧
      (get_status s now).2.rpm.limit = s.rpm_limit ∧
      (get_status s now).2.rpm.remaining =
        max 0 ((get_status s now).2.rpm.limit - (get_status s now).2.rpm.current) ∧
      0 ≤ (get_status s now).2.rpm.remaining) ∧
    ((get_status s now).2.rpd.current =
        ((cleanup_old_entries s now).requests_day.length : Int) ∧
      (get_status s now).2.rpd.limit = s.rpd_limit ∧
      (get_status s now).2.rpd.remaining =
        max 0 ((get_status s now).2.rpd.limit - (get_status s now).2.rpd.current) ∧
      0 ≤ (get_status s now).2.rpd.remaining) ∧
    ((get_status s now).2.tpm.current =
        tokenSum (cleanup_old_entries s now).tokens_minute ∧
      (get_status s now).2.tpm.limit = s.tpm_limit ∧
      (get_status s now).2.tpm.remaining =
        max 0 ((get_status s now).2.tpm.limit - (get_status s now).2.tpm.current) ∧
      0 ≤ (get_status s now).2.tpm.remaining) ∧
    ((get_status s now).2.tpd.current =
        tokenSum (cleanup_old_entries s now).tokens_day ∧
      (get_status s now).2.tpd.limit = s.tpd_limit ∧
      (get_status s now).2.tpd.remaining =
        max 0 ((get_status s now).2.tpd.limit - (get_status s now).2.tpd.current) ∧
      0 ≤ (get_status s now).2.tpd.remaining) :=
  ⟨⟨rfl, rfl, rfl, le_max_left 0 _⟩, ⟨rfl, rfl, rfl, le_max_left 0 _⟩,
   ⟨rfl, rfl, rfl, le_max_left 0 _⟩, ⟨rfl, rfl, rfl, le_max_left 0 _⟩⟩

/-! ### Claim C8 -/

/-- Claim C8: `update_limits` updates exactly the ceilings for which a value
is supplied and leaves every unspecified ceiling unchanged; it never modifies
any of the four usage ledgers, and the new ceilings are the ones reported by
the next status call while the reported usage is unchanged. -/
theorem c8_update_limits_frame (s : RateLimiterState) (now : ℚ)
    (rpm rpd tpm tpd : Option Int) :
    (update_limits s rpm rpd tpm tpd).rpm_limit = rpm.getD s.rpm_limit ∧
    (update_limits s rpm rpd tpm tpd).rpd_limit = rpd.getD s.rpd_limit ∧
    (update_limits s rpm rpd tpm tpd).tpm_limit = tpm.getD s.tpm_limit ∧
    (update_limits s rpm rpd tpm tpd).tpd_limit = tpd.getD s.tpd_limit ∧
    (update_limits s none rpd tpm tpd).rpm_limit = s.rpm_limit ∧
    (update_limits s rpm none tpm tpd).rpd_limit = s.rpd_limit ∧
    (update_limits s rpm rpd none tpd).tpm_limit = s.tpm_limit ∧
    (update_limits s rpm rpd tpm none).tpd_limit = s.tpd_limit ∧
    (update_limits s rpm rpd tpm tpd).requests_minute = s.requests_minute ∧
    (update_limits s rpm rpd tpm tpd).requests_day = s.requests_day ∧
    (update_limits s rpm rpd tpm tpd).tokens_minute = s.tokens_minute ∧
    (update_limits s rpm rpd tpm tpd).tokens_day = s.tokens_day ∧
    (get_status (update_limits s rpm rpd tpm tpd) now).2.rpm.limit =
      rpm.getD s.rpm_limit ∧
    (get_status (update_limits s rpm rpd tpm tpd) now).2.tpm.limit =
      tpm.getD s.tpm_limit ∧
    (get_status (update_limits s rpm rpd tpm tpd) now).2.rpm.current =
      (get_status s now).2.rpm.current ∧
    (get_status (update_limits s rpm rpd tpm tpd) now).2.tpm.current =
      (get_status s now).2.tpm.current :=
  ⟨rfl, rfl, rfl, rfl, rfl, rfl, rfl, rfl, rfl, rfl, rfl, rfl,
   rfl, rfl, rfl, rfl⟩

/-! ### Claim C10 -/

/-- Claim C10: if `rpm_limit` is zero or negative while the minute request
ledger is empty (likewise `rpd_limit` with an empty day ledger), `acquire`
raises an exception — `min()` over an empty sequence, modelled as `none` —
instead of waiting; and neither `update_limits` nor construction rejects such
a configuration (any integer, including a nonpositive one, is accepted). -/
theorem c10_nonpositive_limit_empty_ledger_raises (s : RateLimiterState)
    (now : ℚ) (est : Int) (k : Int) :
    (s.requests_minute = [] → s.rpm_limit ≤ 0 → acquire s now est = none) ∧
    (s.requests_day = [] → s.rpd_limit ≤ 0 → acquire s now est = none) ∧
    (update_limits s (some k) none none none).rpm_limit = k ∧
    (update_limits s none (some k) none none).rpd_limit = k ∧
    (initState k 1 1 1).rpm_limit = k := by
  refine ⟨?_, ?_, rfl, rfl, rfl⟩
  · intro h1 h2
    simp [acquire, calculate_wait_time, requestWaits, h1, listMin, h2]
  · intro h1 h2
    rcases hrw : requestWaits s.rpm_limit
        (s.requests_minute.filter fun t => now - 60 < t) minuteWindow now []
      with _ | w1
    · simp [acquire, calculate_wait_time, hrw]
    · simp [acquire, calculate_wait_time, hrw, requestWaits, h1, listMin, h2]

/-- Witness for C10: the configured-default-shaped state with a zero RPM
ceiling, and with a zero RPD ceiling, both raise; nonpositive ceilings are
accepted by `update_limits`. -/
theorem c10_nonpositive_limit_empty_ledger_raises_witness :
    acquire (⟨0, 1, 1, 1, [], [], [], []⟩ : RateLimiterState) 0 100 = none ∧
    acquire (⟨1, 0, 1, 1, [], [], [], []⟩ : RateLimiterState) 0 100 = none ∧
    (update_limits (⟨1, 1, 1, 1, [], [], [], []⟩ : RateLimiterState)
      (some (-3)) none none none).rpm_limit = -3 :=
  ⟨(c10_nonpositive_limit_empty_ledger_raises
      (⟨0, 1, 1, 1, [], [], [], []⟩ : RateLimiterState) 0 100 (-3)).1 rfl
      (by decide),
   (c10_nonpositive_limit_empty_ledger_raises
      (⟨1, 0, 1, 1, [], [], [], []⟩ : RateLimiterState) 0 100 (-3)).2.1 rfl
      (by decide),
   (c10_nonpositive_limit_empty_ledger_raises
      (⟨1, 1, 1, 1, [], [], [], []⟩ : RateLimiterState) 0 100 (-3)).2.2.1⟩

/-! ### Claim C4 -/

/-- Claim C4: if the minute token ledger is empty when `acquire` runs, no wait
is computed for the TPM metric even when the estimated cost alone exceeds
`tpm_limit` (likewise for the day ledger and `tpd_limit`, covered by the
window-generic first conjunct); consequently a single `acquire` whose cost
exceeds a token ceiling, issued against empty ledgers with positive request
ceilings, records immediately with zero delay. -/
theorem c4_empty_token_ledger_records_immediately
    (rpm rpd tpm tpd : Int) (now : ℚ) (est : Int)
    (h1 : 0 < rpm) (h2 : 0 < rpd) (_h3 : tpm < est) :
    (∀ (limit : Int) (acc : List ℚ) (window : ℚ),
      tokenWaits limit [] window now est acc = acc) ∧
    calculate_wait_time (initState rpm rpd tpm tpd) now est = some 0 ∧
    acquire (initState rpm rpd tpm tpd) now est =
      some (record_request (initState rpm rpd tpm tpd) now est) := by
  refine ⟨?_, ?_, ?_⟩
  · intro limit acc window
    simp [tokenWaits, listMin]
  · simp [calculate_wait_time, initState, requestWaits, tokenWaits, listMin,
      listMax, tokenSum, not_le.2 h1, not_le.2 h2]
  · simp [acquire, calculate_wait_time, initState, cleanup_old_entries,
      requestWaits, tokenWaits, listMin, listMax, tokenSum, record_request,
      not_le.2 h1, not_le.2 h2]

/-- Witness for C4: estimated cost 5 against minute and day token ceilings of
1 still records immediately against empty ledgers. -/
theorem c4_empty_token_ledger_records_immediately_witness :
    tokenWaits 1 [] minuteWindow 0 5 [] = [] ∧
    calculate_wait_time (initState 1 1 1 1) 0 5 = some 0 ∧
    acquire (initState 1 1 1 1) 0 5 =
      some (record_request (initState 1 1 1 1) 0 5) :=
  ⟨(c4_empty_token_ledger_records_immediately 1 1 1 1 0 5 (by decide) (by decide)
      (by decide)).1 1 [] minuteWindow,
   (c4_empty_token_ledger_records_immediately 1 1 1 1 0 5 (by decide) (by decide)
      (by decide)).2.1,
   (c4_empty_token_ledger_records_immediately 1 1 1 1 0 5 (by decide) (by decide)
      (by decide)).2.2⟩

/-! ### Claim C9 -/

theorem overall_health_eq_bucket (a b : ℚ) :
    overall_health a b = healthBucket (max a b) := by
  simp only [overall_health, healthBucket, max_lt_iff]

/-- Claim C9: the derived overall-health classification equals bucketing the
worse (maximum) of the RPM and TPM usage ratios against the thresholds 0.7
and 0.9: good below 0.7, caution below 0.9, critical otherwise. -/
theorem c9_health_is_bucket_of_worse_ratio (s : RateLimiterState) (now : ℚ)
    (h1 : s.rpm_limit ≠ 0) (h2 : s.tpm_limit ≠ 0) :
    get_rate_limit_health s now = some (healthBucket (max
      ((((cleanup_old_entries s now).requests_minute.length : Int) : ℚ) /
        (s.rpm_limit : ℚ))
      ((tokenSum (cleanup_old_entries s now).tokens_minute : ℚ) /
        (s.tpm_limit : ℚ)))) := by
  unfold get_rate_limit_health
  rw [if_neg (by simp [get_status, get_current_status, not_or]; exact ⟨h1, h2⟩)]
  simp [get_status, get_current_status, overall_health_eq_bucket]

/-- Witness for C9 at the configured default ceilings and empty ledgers. -/
theorem c9_health_is_bucket_of_worse_ratio_witness :
    get_rate_limit_health (initState 45 1000 200000 1000000) 0 = some (healthBucket (max
      ((((cleanup_old_entries (initState 45 1000 200000 1000000) 0).requests_minute.length : Int) : ℚ) /
        (((initState 45 1000 200000 1000000).rpm_limit : Int) : ℚ))
      ((tokenSum (cleanup_old_entries (initState 45 1000 200000 1000000) 0).tokens_minute : ℚ) /
        (((initState 45 1000 200000 1000000).tpm_limit : Int) : ℚ)))) :=
  c9_health_is_bucket_of_worse_ratio (initState 45 1000 200000 1000000) 0
    (by decide) (by decide)

/-! ### Claim C3 -/

/-- Claim C3: every `acquire` call that returns, whether or not it waited,
ends by recording exactly once: a single wait is computed (never a loop, no
re-check after the wait), and exactly one timestamp entry is appended to each
of the two request ledgers and exactly one (timestamp, cost) entry to each of
the two token ledgers. -/
theorem c3_acquire_records_exactly_once (s s2 : RateLimiterState) (now : ℚ)
    (est : Int) (h : acquire s now est = some s2) :
    ∃ w t sp, calculate_wait_time (cleanup_old_entries s now) now est = some w ∧
      ((¬ 0 < w ∧ t = now ∧ sp = cleanup_old_entries s now) ∨
        (0 < w ∧ t = now + w ∧
          sp = cleanup_old_entries (cleanup_old_entries s now) (now + w))) ∧
      s2 = record_request sp t est ∧
      s2.requests_minute = sp.requests_minute ++ [t] ∧
      s2.requests_day = sp.requests_day ++ [t] ∧
      s2.tokens_minute = sp.tokens_minute ++ [(t, est)] ∧
      s2.tokens_day = sp.tokens_day ++ [(t, est)] := by
  rcases hw : calculate_wait_time (cleanup_old_entries s now) now est with _ | w
  · unfold acquire at h
    rw [hw] at h
    cases h
  · unfold acquire at h
    rw [hw] at h
    simp only [Option.map_some'] at h
    by_cases h0 : 0 < w
    · rw [if_pos h0] at h
      have h2 := Option.some.inj h
      subst h2
      exact ⟨w, now + w,
        cleanup_old_entries (cleanup_old_entries s now) (now + w), rfl,
        Or.inr ⟨h0, rfl, rfl⟩, rfl, rfl, rfl, rfl, rfl⟩
    · rw [if_neg h0] at h
      have h2 := Option.some.inj h
      subst h2
      exact ⟨w, now, cleanup_old_entries s now, rfl,
        Or.inl ⟨h0, rfl, rfl⟩, rfl, rfl, rfl, rfl, rfl⟩

/-- Witness for C3: the first `acquire` against a fresh limiter with all
ceilings 1 records exactly once with no wait. -/
theorem c3_acquire_records_exactly_once_witness :
    ∃ w t sp, calculate_wait_time (cleanup_old_entries (initState 1 1 1 1) 0) 0 1 =
        some w ∧
      ((¬ 0 < w ∧ t = 0 ∧ sp = cleanup_old_entries (initState 1 1 1 1) 0) ∨
        (0 < w ∧ t = 0 + w ∧
          sp = cleanup_old_entries (cleanup_old_entries (initState 1 1 1 1) 0)
            (0 + w))) ∧
      (⟨1, 1, 1, 1, [0], [0], [(0, 1)], [(0, 1)]⟩ : RateLimiterState) =
        record_request sp t 1 ∧
      (⟨1, 1, 1, 1, [0], [0], [(0, 1)], [(0, 1)]⟩ :
        RateLimiterState).requests_minute = sp.requests_minute ++ [t] ∧
      (⟨1, 1, 1, 1, [0], [0], [(0, 1)], [(0, 1)]⟩ :
        RateLimiterState).requests_day = sp.requests_day ++ [t] ∧
      (⟨1, 1, 1, 1, [0], [0], [(0, 1)], [(0, 1)]⟩ :
        RateLimiterState).tokens_minute = sp.tokens_minute ++ [(t, 1)] ∧
      (⟨1, 1, 1, 1, [0], [0], [(0, 1)], [(0, 1)]⟩ :
        RateLimiterState).tokens_day = sp.tokens_day ++ [(t, 1)] :=
  c3_acquire_records_exactly_once (initState 1 1 1 1)
    (⟨1, 1, 1, 1, [0], [0], [(0, 1)], [(0, 1)]⟩ : RateLimiterState) 0 1
    (by norm_num [acquire, calculate_wait_time, requestWaits, tokenWaits,
      cleanup_old_entries, record_request, initState, listMin, listMax,
      tokenSum, minuteWindow, dayWindow, waitFor])

/-! ### Claim C7 -/

/-- Counterexample to claim C7: with RPM ceiling 1 and one prior request at
time 0, the `acquire` at time 30 suspends for the computed 31-second wait,
and its event trace contains no lock release before the suspension — the
lock is held across the sleep, contrary to the claim. -/
theorem c7_counterexample :
    acquireTrace (⟨1, 1000, 1000000, 1000000, [0], [0], [(0, 1)], [(0, 1)]⟩ :
        RateLimiterState) 30 1 =
      some [LockEvent.lockAcquire, LockEvent.sleepFor 31, LockEvent.grant 61 1,
        LockEvent.lockRelease] ∧
    LockEvent.lockRelease ∉
      ([LockEvent.lockAcquire, LockEvent.sleepFor 31, LockEvent.grant 61 1,
        LockEvent.lockRelease].takeWhile fun e => ! isSleep e) := by
  constructor
  · norm_num [acquireTrace, calculate_wait_time, requestWaits, tokenWaits,
      cleanup_old_entries, listMin, listMax, tokenSum, minuteWindow, dayWindow,
      waitFor]
  · simp [List.takeWhile, isSleep]

/-- Claim C7 (amended): the mutual-exclusion lock is held for the entire
`acquire` call: every event trace opens by taking the lock, closes by
releasing it, and contains no other lock acquisition or release in between —
in particular the computed sleep, when present, happens with the lock held,
and the lock is taken and released exactly once per call. -/
theorem c7_amended_lock_held_for_entire_call (s : RateLimiterState) (now : ℚ)
    (est : Int) (tr : List LockEvent) (h : acquireTrace s now est = some tr) :
    ∃ mid, tr = LockEvent.lockAcquire :: mid ++ [LockEvent.lockRelease] ∧
      ∀ e ∈ mid, e ≠ LockEvent.lockAcquire ∧ e ≠ LockEvent.lockRelease := by
  rcases hw : calculate_wait_time (cleanup_old_entries s now) now est with _ | w
  · unfold acquireTrace at h
    rw [hw] at h
    cases h
  · unfold acquireTrace at h
    rw [hw] at h
    simp only [Option.map_some'] at h
    by_cases h0 : 0 < w
    · rw [if_pos h0] at h
      have h2 := Option.some.inj h
      subst h2
      refine ⟨[LockEvent.sleepFor w, LockEvent.grant (now + w) est], rfl, ?_⟩
      intro e he
      rcases List.mem_cons.1 he with rfl | he2
      · exact ⟨by simp, by simp⟩
      · rcases List.mem_cons.1 he2 with rfl | he3
        · exact ⟨by simp, by simp⟩
        · cases he3
    · rw [if_neg h0] at h
      have h2 := Option.some.inj h
      subst h2
      refine ⟨[LockEvent.grant now est], rfl, ?_⟩
      intro e he
      rcases List.mem_cons.1 he with rfl | he2
      · exact ⟨by simp, by simp⟩
      · cases he2

/-- Witness for the amended C7 at the concrete waiting scenario. -/
theorem c7_amended_lock_held_for_entire_call_witness :
    ∃ mid, [LockEvent.lockAcquire, LockEvent.sleepFor 31, LockEvent.grant 61 1,
        LockEvent.lockRelease] =
      LockEvent.lockAcquire :: mid ++ [LockEvent.lockRelease] ∧
      ∀ e ∈ mid, e ≠ LockEvent.lockAcquire ∧ e ≠ LockEvent.lockRelease :=
  c7_amended_lock_held_for_entire_call
    (⟨1, 1000, 1000000, 1000000, [0], [0], [(0, 1)], [(0, 1)]⟩ :
      RateLimiterState) 30 1
    [LockEvent.lockAcquire, LockEvent.sleepFor 31, LockEvent.grant 61 1,
      LockEvent.lockRelease]
    (by norm_num [acquireTrace, calculate_wait_time, requestWaits, tokenWaits,
      cleanup_old_entries, listMin, listMax, tokenSum, minuteWindow, dayWindow,
      waitFor])

/-! ### Claim C2 -/

theorem requestWaits_eq_append (limit : Int) (ledger : List ℚ)
    (window now : ℚ) (acc : List ℚ) (hpos : 0 < limit) :
    requestWaits limit ledger window now acc = some (acc ++
      (if limit ≤ (ledger.length : Int) then
        match listMin ledger with
        | some oldest => [waitFor window now oldest]
        | none => []
      else [])) := by
  unfold requestWaits
  by_cases h : limit ≤ (ledger.length : Int)
  · rw [if_pos h, if_pos h]
    have hne : ledger ≠ [] := by
      intro hnil
      rw [hnil] at h
      simp only [List.length_nil, Nat.cast_zero] at h
      omega
    obtain ⟨o, ho⟩ := listMin_isSome ledger hne
    rw [ho]
    rfl
  · rw [if_neg h, if_neg h]
    simp

theorem tokenWaits_eq_append (limit : Int) (ledger : List (ℚ × Int))
    (window now : ℚ) (est : Int) (acc : List ℚ) :
    tokenWaits limit ledger window now est acc = acc ++
      (if limit < tokenSum ledger + est then
        match listMin (ledger.map Prod.fst) with
        | some oldest => [waitFor window now oldest]
        | none => []
      else []) := by
  unfold tokenWaits
  by_cases h : limit < tokenSum ledger + est
  · rw [if_pos h, if_pos h]
    cases ho : listMin (ledger.map Prod.fst) with
    | none => simp
    | some o => simp
  · rw [if_neg h, if_neg h]
    simp

theorem calculate_wait_time_eq_spec (s : RateLimiterState) (now : ℚ) (est : Int)
    (h1 : 0 < s.rpm_limit) (h2 : 0 < s.rpd_limit) :
    calculate_wait_time s now est = some (specWaitTime s now est) := by
  unfold calculate_wait_time specWaitTime specViolatedWaits
  rw [requestWaits_eq_append s.rpm_limit s.requests_minute minuteWindow now [] h1]
  rw [Option.some_bind]
  rw [requestWaits_eq_append s.rpd_limit s.requests_day dayWindow now _ h2]
  rw [Option.map_some']
  rw [tokenWaits_eq_append, tokenWaits_eq_append]
  simp [List.append_assoc]

theorem specWaitTime_eq_zero_of_noViolation (s : RateLimiterState) (now : ℚ)
    (est : Int) (h : noViolation s est) : specWaitTime s now est = 0 := by
  obtain ⟨hA, hB, hC, hD⟩ := h
  unfold specWaitTime specViolatedWaits
  rw [if_neg (not_le.2 hA), if_neg (not_le.2 hB), if_neg (not_lt.2 hC),
    if_neg (not_lt.2 hD)]
  rfl

/-- Claim C2: for every governor state and `acquire` call (with positive
request ceilings so that no `min()` exception occurs), the computed delay
equals the maximum — not the sum — over all violated metrics of
(window length − (now − oldest counted entry) + 1 second); when no metric is
violated the computed delay is zero and `acquire` records immediately with no
sleep. -/
theorem c2_wait_is_max_over_violated_metrics (s : RateLimiterState) (now : ℚ)
    (est : Int) (h1 : 0 < s.rpm_limit) (h2 : 0 < s.rpd_limit) :
    calculate_wait_time s now est = some (specWaitTime s now est) ∧
    (noViolation s est → specWaitTime s now est = 0) ∧
    (noViolation (cleanup_old_entries s now) est →
      acquire s now est =
        some (record_request (cleanup_old_entries s now) now est)) := by
  refine ⟨calculate_wait_time_eq_spec s now est h1 h2,
    specWaitTime_eq_zero_of_noViolation s now est, ?_⟩
  intro hnv
  unfold acquire
  rw [calculate_wait_time_eq_spec (cleanup_old_entries s now) now est h1 h2]
  rw [specWaitTime_eq_zero_of_noViolation (cleanup_old_entries s now) now est hnv]
  rw [Option.map_some']
  rw [if_neg (lt_irrefl 0)]

/-- Witness for C2 against a fresh limiter with all ceilings 1 and zero
estimated cost: nothing is violated, the delay is zero, recording is
immediate. -/
theorem c2_wait_is_max_over_violated_metrics_witness :
    calculate_wait_time (initState 1 1 1 1) 0 0 =
      some (specWaitTime (initState 1 1 1 1) 0 0) ∧
    specWaitTime (initState 1 1 1 1) 0 0 = 0 ∧
    acquire (initState 1 1 1 1) 0 0 =
      some (record_request (cleanup_old_entries (initState 1 1 1 1) 0) 0 0) :=
  ⟨(c2_wait_is_max_over_violated_metrics (initState 1 1 1 1) 0 0 (by decide)
      (by decide)).1,
   (c2_wait_is_max_over_violated_metrics (initState 1 1 1 1) 0 0 (by decide)
      (by decide)).2.1 ⟨by decide, by decide, by decide, by decide⟩,
   (c2_wait_is_max_over_violated_metrics (initState 1 1 1 1) 0 0 (by decide)
      (by decide)).2.2 ⟨by decide, by decide, by decide, by decide⟩⟩

/-! ### Claim C1 -/

theorem requestWaits_mem (limit : Int) (ledger : List ℚ) (window now : ℚ)
    (acc w : List ℚ) (h : requestWaits limit ledger window now acc = some w)
    (x : ℚ) (hx : x ∈ acc) : x ∈ w := by
  unfold requestWaits at h
  by_cases hc : limit ≤ (ledger.length : Int)
  · rw [if_pos hc] at h
    rcases hm : listMin ledger with _ | o
    · rw [hm] at h; cases h
    · rw [hm] at h
      simp only [Option.map_some'] at h
      rw [← Option.some.inj h]
      exact List.mem_append_left _ hx
  · rw [if_neg hc] at h
    rw [← Option.some.inj h]
    exact hx

theorem calcWait_ge_rpm (s : RateLimiterState) (now : ℚ) (est : Int) (w o : ℚ)
    (hw : calculate_wait_time s now est = some w)
    (hge : s.rpm_limit ≤ (s.requests_minute.length : Int))
    (ho : listMin s.requests_minute = some o) :
    waitFor minuteWindow now o ≤ w := by
  unfold calculate_wait_time requestWaits at hw
  rw [if_pos hge, ho] at hw
  simp only [Option.map_some', Option.some_bind, List.nil_append] at hw
  by_cases hd : s.rpd_limit ≤ (s.requests_day.length : Int)
  · rw [if_pos hd] at hw
    rcases hmd : listMin s.requests_day with _ | od
    · rw [hmd] at hw; cases hw
    · rw [hmd] at hw
      simp only [Option.map_some'] at hw
      have hwv := (Option.some.inj hw).symm
      have hmem : waitFor minuteWindow now o ∈
          tokenWaits s.tpd_limit s.tokens_day dayWindow now est
            (tokenWaits s.tpm_limit s.tokens_minute minuteWindow now est
              ([waitFor minuteWindow now o] ++ [waitFor dayWindow now od])) := by
        rw [tokenWaits_eq_append, tokenWaits_eq_append]
        exact List.mem_append_left _ (List.mem_append_left _
          (List.mem_append_left _ (List.mem_singleton.2 rfl)))
      rw [hwv]
      exact le_listMax_getD _ _ hmem
  · rw [if_neg hd] at hw
    simp only [Option.map_some'] at hw
    have hwv := (Option.some.inj hw).symm
    have hmem : waitFor minuteWindow now o ∈
        tokenWaits s.tpd_limit s.tokens_day dayWindow now est
          (tokenWaits s.tpm_limit s.tokens_minute minuteWindow now est
            [waitFor minuteWindow now o]) := by
      rw [tokenWaits_eq_append, tokenWaits_eq_append]
      exact List.mem_append_left _ (List.mem_append_left _
        (List.mem_singleton.2 rfl))
    rw [hwv]
    exact le_listMax_getD _ _ hmem

theorem calcWait_ge_rpd (s : RateLimiterState) (now : ℚ) (est : Int) (w o : ℚ)
    (hw : calculate_wait_time s now est = some w)
    (hge : s.rpd_limit ≤ (s.requests_day.length : Int))
    (ho : listMin s.requests_day = some o) :
    waitFor dayWindow now o ≤ w := by
  unfold calculate_wait_time at hw
  rcases hrm : requestWaits s.rpm_limit s.requests_minute minuteWindow now []
    with _ | w1
  · rw [hrm] at hw; cases hw
  · rw [hrm] at hw
    simp only [Option.some_bind] at hw
    unfold requestWaits at hw
    rw [if_pos hge, ho] at hw
    simp only [Option.map_some'] at hw
    have hwv := (Option.some.inj hw).symm
    have hmem : waitFor dayWindow now o ∈
        tokenWaits s.tpd_limit s.tokens_day dayWindow now est
          (tokenWaits s.tpm_limit s.tokens_minute minuteWindow now est
            (w1 ++ [waitFor dayWindow now o])) := by
      rw [tokenWaits_eq_append, tokenWaits_eq_append]
      exact List.mem_append_left _ (List.mem_append_left _
        (List.mem_append_right _ (List.mem_singleton.2 rfl)))
    rw [hwv]
    exact le_listMax_getD _ _ hmem

theorem cleanup_bound_after_wait (l : List ℚ) (window now w o : ℚ)
    (ho : listMin l = some o) (hwait : waitFor window now o ≤ w) :
    ((l.filter fun t => now + w - window < t).length) < l.length := by
  apply length_filter_lt l _ o (listMin_mem l o ho)
  apply decide_eq_false
  unfold waitFor at hwait
  intro hlt
  linarith

theorem acquire_preserves_reqInv (s s2 : RateLimiterState) (now : ℚ) (est : Int)
    (hinv : reqInv s) (h : acquire s now est = some s2) : reqInv s2 := by
  obtain ⟨hp1, hp2, hb1, hb2⟩ := hinv
  rcases hw : calculate_wait_time (cleanup_old_entries s now) now est with _ | w
  · unfold acquire at h
    rw [hw] at h
    cases h
  · unfold acquire at h
    rw [hw] at h
    simp only [Option.map_some'] at h
    have hlen1 : ((cleanup_old_entries s now).requests_minute.length : Int) ≤
        s.rpm_limit := by
      rw [cleanup_requests_minute]
      have hf := List.length_filter_le
        (fun t => decide (now - 60 < t)) s.requests_minute
      omega
    have hlen2 : ((cleanup_old_entries s now).requests_day.length : Int) ≤
        s.rpd_limit := by
      rw [cleanup_requests_day]
      have hf := List.length_filter_le
        (fun t => decide (now - 86400 < t)) s.requests_day
      omega
    by_cases h0 : 0 < w
    · rw [if_pos h0] at h
      have h2 := Option.some.inj h
      subst h2
      refine ⟨hp1, hp2, ?_, ?_⟩
      · simp only [record_requests_minute, record_rpm_limit, cleanup_rpm_limit,
          List.length_append, List.length_singleton]
        by_cases hge : s.rpm_limit ≤
            ((cleanup_old_entries s now).requests_minute.length : Int)
        · have hne : (cleanup_old_entries s now).requests_minute ≠ [] := by
            intro hnil
            rw [hnil] at hge
            simp only [List.length_nil, Nat.cast_zero] at hge
            omega
          obtain ⟨o, ho⟩ := listMin_isSome _ hne
          have hwge : waitFor minuteWindow now o ≤ w :=
            calcWait_ge_rpm (cleanup_old_entries s now) now est w o hw hge ho
          have hdrop :=
            cleanup_bound_after_wait ((cleanup_old_entries s now).requests_minute)
              60 now w o ho hwge
          simp only [cleanup_requests_minute] at hdrop hlen1 ⊢
          omega
        · have hmono := List.length_filter_le
            (fun t => decide (now + w - 60 < t))
            ((cleanup_old_entries s now).requests_minute)
          simp only [cleanup_requests_minute] at hmono hge ⊢
          omega
      · simp only [record_requests_day, record_rpd_limit, cleanup_rpd_limit,
          List.length_append, List.length_singleton]
        by_cases hge : s.rpd_limit ≤
            ((cleanup_old_entries s now).requests_day.length : Int)
        · have hne : (cleanup_old_entries s now).requests_day ≠ [] := by
            intro hnil
            rw [hnil] at hge
            simp only [List.length_nil, Nat.cast_zero] at hge
            omega
          obtain ⟨o, ho⟩ := listMin_isSome _ hne
          have hwge : waitFor dayWindow now o ≤ w :=
            calcWait_ge_rpd (cleanup_old_entries s now) now est w o hw hge ho
          have hdrop :=
            cleanup_bound_after_wait ((cleanup_old_entries s now).requests_day)
              86400 now w o ho hwge
          simp only [cleanup_requests_day] at hdrop hlen2 ⊢
          omega
        · have hmono := List.length_filter_le
            (fun t => decide (now + w - 86400 < t))
            ((cleanup_old_entries s now).requests_day)
          simp only [cleanup_requests_day] at hmono hge ⊢
          omega
    · rw [if_neg h0] at h
      have h2 := Option.some.inj h
      subst h2
      refine ⟨hp1, hp2, ?_, ?_⟩
      · have hlt : ((cleanup_old_entries s now).requests_minute.length : Int) <
            s.rpm_limit := by
          by_contra hc
          push_neg at hc
          have hne : (cleanup_old_entries s now).requests_minute ≠ [] := by
            intro hnil
            rw [hnil] at hc
            simp only [List.length_nil, Nat.cast_zero] at hc
            omega
          obtain ⟨o, ho⟩ := listMin_isSome _ hne
          have hwge : waitFor minuteWindow now o ≤ w :=
            calcWait_ge_rpm (cleanup_old_entries s now) now est w o hw hc ho
          have hmem := listMin_mem _ o ho
          rw [cleanup_requests_minute] at hmem
          have hwin : now - 60 < o :=
            of_decide_eq_true (List.mem_filter.1 hmem).2
          have hpos : (0 : ℚ) < waitFor minuteWindow now o := by
            unfold waitFor minuteWindow
            linarith
          exact h0 (lt_of_lt_of_le hpos hwge)
        simp only [record_requests_minute, record_rpm_limit, cleanup_rpm_limit,
          List.length_append, List.length_singleton]
        simp only [cleanup_requests_minute] at hlt ⊢
        omega
      · have hlt : ((cleanup_old_entries s now).requests_day.length : Int) <
            s.rpd_limit := by
          by_contra hc
          push_neg at hc
          have hne : (cleanup_old_entries s now).requests_day ≠ [] := by
            intro hnil
            rw [hnil] at hc
            simp only [List.length_nil, Nat.cast_zero] at hc
            omega
          obtain ⟨o, ho⟩ := listMin_isSome _ hne
          have hwge : waitFor dayWindow now o ≤ w :=
            calcWait_ge_rpd (cleanup_old_entries s now) now est w o hw hc ho
          have hmem := listMin_mem _ o ho
          rw [cleanup_requests_day] at hmem
          have hwin : now - 86400 < o :=
            of_decide_eq_true (List.mem_filter.1 hmem).2
          have hpos : (0 : ℚ) < waitFor dayWindow now o := by
            unfold waitFor dayWindow
            linarith
          exact h0 (lt_of_lt_of_le hpos hwge)
        simp only [record_requests_day, record_rpd_limit, cleanup_rpd_limit,
          List.length_append, List.length_singleton]
        simp only [cleanup_requests_day] at hlt ⊢
        omega

theorem runAcquires_preserves_reqInv (calls : List (ℚ × Int)) :
    ∀ s s2 : RateLimiterState, reqInv s → runAcquires s calls = some s2 →
      reqInv s2 := by
  induction calls with
  | nil =>
    intro s s2 hi h
    simp only [runAcquires] at h
    rw [← Option.some.inj h]
    exact hi
  | cons c rest ih =>
    intro s s2 hi h
    obtain ⟨t, cost⟩ := c
    simp only [runAcquires] at h
    rcases ha : acquire s t cost with _ | s1
    · rw [ha] at h; cases h
    · rw [ha] at h
      simp only [Option.some_bind] at h
      exact ih s1 s2 (acquire_preserves_reqInv s s1 t cost hi ha) h

/-- Counterexample to claim C1: the sequential three-call scenario
`acquire(10)` at t=0, `acquire(80)` at t=50, `acquire(60)` at t=59 against
ceilings (RPM 1000, RPD 1000, TPM 100, TPD 1000000) ends, immediately after
the third call returns, with 140 minute-window tokens recorded against the
TPM ceiling of 100: the computed wait only guarantees that the oldest token
entry leaves the window, not that enough token mass does. -/
theorem c1_counterexample_tpm_exceeded :
    runAcquires (initState 1000 1000 100 1000000) [(0, 10), (50, 80), (59, 60)] =
      some ⟨1000, 1000, 100, 1000000, [50, 61], [0, 50, 61],
        [(50, 80), (61, 60)], [(0, 10), (50, 80), (61, 60)]⟩ ∧
    ¬ (tokenSum [((50 : ℚ), (80 : Int)), (61, 60)] ≤
        (initState 1000 1000 100 1000000).tpm_limit) := by
  constructor
  · norm_num [runAcquires, acquire, calculate_wait_time, requestWaits,
      tokenWaits, cleanup_old_entries, record_request, initState, listMin,
      listMax, tokenSum, minuteWindow, dayWindow, waitFor]
  · decide

/-- Claim C1 (amended): for every finite sequence of `acquire` calls starting
from empty ledgers with positive ceilings, immediately after each call (that
is, after every prefix of the sequence) the two request-count metrics are
within their ceilings: the minute-window request count is at most
`rpm_limit` and the day-window request count is at most `rpd_limit`.  The
token-sum halves of the original claim are false (see the counterexample):
the TPM and TPD token sums can exceed their ceilings after a wait. -/
theorem c1_amended_request_counts_within_ceilings
    (rpm rpd tpm tpd : Int) (h1 : 0 < rpm) (h2 : 0 < rpd)
    (calls : List (ℚ × Int)) (s2 : RateLimiterState)
    (h : runAcquires (initState rpm rpd tpm tpd) calls = some s2) :
    (s2.requests_minute.length : Int) ≤ s2.rpm_limit ∧
    (s2.requests_day.length : Int) ≤ s2.rpd_limit := by
  have hinv : reqInv (initState rpm rpd tpm tpd) := by
    refine ⟨h1, h2, ?_, ?_⟩ <;> simp [initState] <;> omega
  have hres := runAcquires_preserves_reqInv calls _ s2 hinv h
  exact ⟨hres.2.2.1, hres.2.2.2⟩

/-- Witness for the amended C1: one call against all-ones ceilings. -/
theorem c1_amended_request_counts_within_ceilings_witness :
    (((⟨1, 1, 1, 1, [0], [0], [(0, 1)], [(0, 1)]⟩ :
        RateLimiterState).requests_minute.length : Int) ≤
      (⟨1, 1, 1, 1, [0], [0], [(0, 1)], [(0, 1)]⟩ :
        RateLimiterState).rpm_limit) ∧
    (((⟨1, 1, 1, 1, [0], [0], [(0, 1)], [(0, 1)]⟩ :
        RateLimiterState).requests_day.length : Int) ≤
      (⟨1, 1, 1, 1, [0], [0], [(0, 1)], [(0, 1)]⟩ :
        RateLimiterState).rpd_limit) :=
  c1_amended_request_counts_within_ceilings 1 1 1 1 (by decide) (by decide)
    [(0, 1)] (⟨1, 1, 1, 1, [0], [0], [(0, 1)], [(0, 1)]⟩ : RateLimiterState)
    (by norm_num [runAcquires, acquire, calculate_wait_time, requestWaits,
      tokenWaits, cleanup_old_entries, record_request, initState, listMin,
      listMax, tokenSum, minuteWindow, dayWindow, waitFor])
